import Mathlib

/-! Verification of the go-httptrack library (package `httptrack`).

The library has two halves:

* the bind pass of `Handler` (src/httptrack.go, lines 88-128): for each
  configured `Value` rule it reads the inbound header / cookie / query
  parameter, falls back to `MissingFunc` when the value is absent or empty,
  and collects the non-empty results into an ordered list of `ctxValue`
  triples which is stored in the request context;
* `AddContextData` (lines 164-188): retrieves that list from the outbound
  request's context and writes each triple onto the request, appending a
  header, a cookie, or a query parameter, mutating the request in place.

The embedding below models an HTTP request as its observable parts: the
header bag, the cookie bag, the optional URL (carrying the parsed query
multi-map, in order of appearance) and the httptrack slot of its context.
Go mutates `*http.Request` in place, so the applier is modelled as explicit
state passing: it returns the final state of the request together with the
error that `AddContextData` returns (`none` for a nil error).  Fallback
invocation is instrumented: `resolveRule` returns, next to the resolved
value, the number of times the single `MissingFunc` call site of the loop
body (line 114) executed during that iteration.
-/

set_option autoImplicit false

namespace Httptrack

/-- The `Location*` constants of the Go source (lines 38-42); Go `int`. -/
def LocationHeader : Int := 1

/-- `LocationCookie = 2`. -/
def LocationCookie : Int := 2

/-- `LocationQueryParam = 3`. -/
def LocationQueryParam : Int := 3

/-- The query component of `url.URL`: the parsed multi-map of the raw query
string, as a list of (key, value) pairs in order of appearance.
`Query().Get(k)` returns the first value for `k`; `Query().Add(k,v)` appends
a pair and `Encode` re-encodes, preserving all pairs. -/
structure URL where
  query : List (String × String)
  deriving DecidableEq, Repr

/-- The internal `ctxValue` struct (lines 71-75): one resolved triple. -/
structure ctxValue where
  location : Int
  name : String
  value : String
  deriving DecidableEq, Repr

/-- The internal `ctxData` struct (lines 78-80): the carrier stored under the
`ctxDataName("httptrack")` context key. -/
structure ctxData where
  values : List ctxValue
  deriving DecidableEq, Repr

/-- An `http.Request`, restricted to the parts this library reads or writes:
the header bag, the cookie bag, the optional URL, and the httptrack slot of
its context (`none` models a context without the httptrack key, in which case
the type assertion at line 165 fails). -/
structure Request where
  headers : List (String × String)
  cookies : List (String × String)
  url : Option URL
  ctx : Option ctxData
  deriving DecidableEq, Repr

/-- The user-facing `Value` rule struct (lines 53-64). -/
structure Value where
  InboundLocation : Int
  InboundName : String
  OutboundLocation : Int
  OutboundName : String
  MissingFunc : Option (String → Request → String)

/-- `http.Header.Get`: first value stored for the key, `""` when absent.
Go canonicalises header keys on both `Add` and `Get`, so keys are modelled
already in canonical form and compared verbatim. -/
def headerGet (hs : List (String × String)) (key : String) : String :=
  match hs.find? (fun p => p.1 == key) with
  | some p => p.2
  | none => ""

/-- `(*http.Request).Cookie`: the first cookie with the name, or an error
(modelled as `none`) when there is none. -/
def cookieGet (cs : List (String × String)) (key : String) : Option String :=
  (cs.find? (fun p => p.1 == key)).map (fun p => p.2)

/-- `r.URL.Query().Get`: first query value for the key, `""` when absent. -/
def queryGet (u : URL) (key : String) : String :=
  headerGet u.query key

/-- The `switch v.InboundLocation` of the bind loop (lines 94-111): the value
of `outboundValue` before the fallback check.  Every branch leaves
`outboundValue` empty exactly when the read is absent or empty; a location
outside the three constants matches no case and leaves it empty. -/
def readInbound (r : Request) (v : Value) : String :=
  if v.InboundLocation = LocationHeader then
    headerGet r.headers v.InboundName
  else if v.InboundLocation = LocationCookie then
    match cookieGet r.cookies v.InboundName with
    | some val => val
    | none => ""
  else if v.InboundLocation = LocationQueryParam then
    match r.url with
    | some u => queryGet u v.InboundName
    | none => ""
  else ""

/-- Lines 112-115 of the bind loop: if the read value is empty and a
`MissingFunc` is configured, call it once.  The second component counts the
executions of the call site `v.MissingFunc(v.OutboundName, *r)` in this
iteration. -/
def resolveRule (r : Request) (v : Value) : String × Nat :=
  let ov := readInbound r v
  if ov = "" then
    match v.MissingFunc with
    | some f => (f v.OutboundName r, 1)
    | none => (ov, 0)
  else
    (ov, 0)

/-- Lines 116-123: a non-empty resolved value is appended to `ctxValues` as a
triple; an empty one is skipped. -/
def bindRule (r : Request) (v : Value) : Option ctxValue :=
  let ov := (resolveRule r v).1
  if ov = "" then none
  else some ⟨v.OutboundLocation, v.OutboundName, ov⟩

/-- The whole bind loop (lines 91-124): the `ctxValues` list it builds, in
rule order. -/
def bindValues (r : Request) : List Value → List ctxValue
  | [] => []
  | v :: vs =>
    match bindRule r v with
    | some cv => cv :: bindValues r vs
    | none => bindValues r vs

/-- Per-rule fallback invocation counts of one bind pass, in rule order. -/
def bindCalls (r : Request) (vs : List Value) : List Nat :=
  vs.map (fun v => (resolveRule r v).2)

/-- Line 125: the request handed to the wrapped handler carries the freshly
built carrier in its context (always present, even when empty). -/
def handlerBind (vs : List Value) (r : Request) : Request :=
  { r with ctx := some ⟨bindValues r vs⟩ }

/-- The two error values `AddContextData` can return: `ErrMissingContext`
(line 130; the spec's `MissingCarrierError`) and the inline
`errors.New("request has no URL set")` (line 180; the spec's
`InvalidRequestError`). -/
inductive HtError where
  | missingContext
  | noURL
  deriving DecidableEq, Repr

/-- The `for` loop of `AddContextData` (lines 169-186).  Go mutates `req`
through its pointer, so the loop is explicit state passing: the result is the
final state of the request and the returned error (`none` for nil).  A
location matching none of the three cases falls through the `switch` and
writes nothing. -/
def addValues : Request → List ctxValue → Request × Option HtError
  | req, [] => (req, none)
  | req, c :: rest =>
    if c.location = LocationHeader then
      addValues { req with headers := req.headers ++ [(c.name, c.value)] } rest
    else if c.location = LocationCookie then
      addValues { req with cookies := req.cookies ++ [(c.name, c.value)] } rest
    else if c.location = LocationQueryParam then
      match req.url with
      | none => (req, some HtError.noURL)
      | some u =>
        addValues { req with url := some ⟨u.query ++ [(c.name, c.value)]⟩ } rest
    else
      addValues req rest

/-- `AddContextData` (lines 164-188): the final state of the request and the
returned error. -/
def AddContextData (req : Request) : Request × Option HtError :=
  match req.ctx with
  | none => (req, some HtError.missingContext)
  | some data => addValues req data.values

/-- The request `http.NewRequestWithContext` hands to `AddContextData` inside
`NewRequestWithContext`: fresh empty header and cookie bags, the URL produced
by the underlying constructor, and the given context. -/
def baseRequest (ctx : Option ctxData) (url : Option URL) : Request :=
  { headers := [], cookies := [], url := url, ctx := ctx }

/-- `NewRequestWithContext` (lines 140-153) after the underlying
`http.NewRequestWithContext` succeeded: run `AddContextData` on the fresh
request; swallow `ErrMissingContext`, propagate any other error, and
otherwise return the (in-place updated) request. -/
def NewRequestWithContext (ctx : Option ctxData) (url : Option URL) :
    Except HtError Request :=
  let res := AddContextData (baseRequest ctx url)
  match res.2 with
  | some err =>
    if err = HtError.missingContext then Except.ok res.1 else Except.error err
  | none => Except.ok res.1

/-- The (name, value) pairs of the carrier's header triples, in order. -/
def headerPairs : List ctxValue → List (String × String)
  | [] => []
  | c :: rest =>
    if c.location = LocationHeader then (c.name, c.value) :: headerPairs rest
    else headerPairs rest

/-- The (name, value) pairs of the carrier's cookie triples, in order. -/
def cookiePairs : List ctxValue → List (String × String)
  | [] => []
  | c :: rest =>
    if c.location = LocationCookie then (c.name, c.value) :: cookiePairs rest
    else cookiePairs rest

/-- The (name, value) pairs of the carrier's query triples, in order. -/
def queryPairs : List ctxValue → List (String × String)
  | [] => []
  | c :: rest =>
    if c.location = LocationQueryParam then (c.name, c.value) :: queryPairs rest
    else queryPairs rest

/-- The query multi-map of a request, `[]` when it has no URL. -/
def queryList (req : Request) : List (String × String) :=
  match req.url with
  | some u => u.query
  | none => []

example :
    bindValues
      { headers := [("x-tracking-id", "abc123")], cookies := [], url := none, ctx := none }
      [⟨LocationHeader, "x-tracking-id", LocationHeader, "x-tracking-id", none⟩] =
    [⟨LocationHeader, "x-tracking-id", "abc123"⟩] := rfl

example :
    bindValues
      { headers := [], cookies := [("session-id", "xyz")], url := none, ctx := none }
      [⟨LocationCookie, "session-id", LocationHeader, "x-client-session-id", none⟩] =
    [⟨LocationHeader, "x-client-session-id", "xyz"⟩] := rfl

example :
    resolveRule
      { headers := [], cookies := [], url := none, ctx := none }
      ⟨LocationHeader, "x-tracking-id", LocationHeader, "x-tracking-id",
        some (fun _ _ => "blah")⟩ = ("blah", 1) := rfl

/-! Lemmas about the bind pass. -/

theorem bindValues_eq_filterMap (r : Request) (vs : List Value) :
    bindValues r vs = vs.filterMap (fun v => bindRule r v) := by
  induction vs with
  | nil => rfl
  | cons v vs ih =>
    simp only [bindValues, List.filterMap_cons]
    cases bindRule r v <;> simp [ih]

theorem bindValues_append (r : Request) (a b : List Value) :
    bindValues r (a ++ b) = bindValues r a ++ bindValues r b := by
  simp [bindValues_eq_filterMap, List.filterMap_append]

/-! Lemmas about the apply loop. -/

theorem addValues_header (req : Request) (c : ctxValue) (rest : List ctxValue)
    (h : c.location = LocationHeader) :
    addValues req (c :: rest) =
      addValues { req with headers := req.headers ++ [(c.name, c.value)] } rest := by
  simp [addValues, h]

theorem addValues_cookie (req : Request) (c : ctxValue) (rest : List ctxValue)
    (h : c.location = LocationCookie) :
    addValues req (c :: rest) =
      addValues { req with cookies := req.cookies ++ [(c.name, c.value)] } rest := by
  have h1 : ¬(LocationCookie = LocationHeader) := by decide
  simp [addValues, h, h1]

theorem addValues_query_some (req : Request) (c : ctxValue) (rest : List ctxValue)
    (u : URL) (h : c.location = LocationQueryParam) (hu : req.url = some u) :
    addValues req (c :: rest) =
      addValues { req with url := some ⟨u.query ++ [(c.name, c.value)]⟩ } rest := by
  have h1 : ¬(LocationQueryParam = LocationHeader) := by decide
  have h2 : ¬(LocationQueryParam = LocationCookie) := by decide
  simp [addValues, h, h1, h2, hu]

theorem addValues_query_none (req : Request) (c : ctxValue) (rest : List ctxValue)
    (h : c.location = LocationQueryParam) (hu : req.url = none) :
    addValues req (c :: rest) = (req, some HtError.noURL) := by
  have h1 : ¬(LocationQueryParam = LocationHeader) := by decide
  have h2 : ¬(LocationQueryParam = LocationCookie) := by decide
  simp [addValues, h, h1, h2, hu]

theorem addValues_skip (req : Request) (c : ctxValue) (rest : List ctxValue)
    (h1 : c.location ≠ LocationHeader) (h2 : c.location ≠ LocationCookie)
    (h3 : c.location ≠ LocationQueryParam) :
    addValues req (c :: rest) = addValues req rest := by
  simp [addValues, h1, h2, h3]

/-- Success-case characterisation of the apply loop: on a nil error the final
request extends every bag of the initial one with exactly the matching
carrier pairs, in order, and leaves the context alone. -/
theorem addValues_ok (vals : List ctxValue) :
    ∀ req req' : Request, addValues req vals = (req', none) →
      req'.headers = req.headers ++ headerPairs vals ∧
      req'.cookies = req.cookies ++ cookiePairs vals ∧
      queryList req' = queryList req ++ queryPairs vals ∧
      req'.ctx = req.ctx := by
  induction vals with
  | nil =>
    intro req req' h
    simp only [addValues, Prod.mk.injEq] at h
    obtain ⟨h1, -⟩ := h
    subst h1
    simp [headerPairs, cookiePairs, queryPairs]
  | cons c rest ih =>
    intro req req' h
    by_cases hH : c.location = LocationHeader
    · rw [addValues_header req c rest hH] at h
      obtain ⟨e1, e2, e3, e4⟩ := ih _ _ h
      have hc : c.location ≠ LocationCookie := by rw [hH]; decide
      have hq : c.location ≠ LocationQueryParam := by rw [hH]; decide
      refine ⟨?_, ?_, ?_, e4⟩
      · rw [e1]; simp [headerPairs, hH]
      · rw [e2]; simp [cookiePairs, hc]
      · rw [e3]; simp [queryPairs, hq, queryList]
    · by_cases hC : c.location = LocationCookie
      · rw [addValues_cookie req c rest hC] at h
        obtain ⟨e1, e2, e3, e4⟩ := ih _ _ h
        have hq : c.location ≠ LocationQueryParam := by rw [hC]; decide
        refine ⟨?_, ?_, ?_, e4⟩
        · rw [e1]; simp [headerPairs, hH]
        · rw [e2]; simp [cookiePairs, hC]
        · rw [e3]; simp [queryPairs, hq, queryList]
      · by_cases hQ : c.location = LocationQueryParam
        · cases hu : req.url with
          | none =>
            rw [addValues_query_none req c rest hQ hu] at h
            simp only [Prod.mk.injEq] at h
            exact absurd h.2 (by simp)
          | some u =>
            rw [addValues_query_some req c rest u hQ hu] at h
            obtain ⟨e1, e2, e3, e4⟩ := ih _ _ h
            refine ⟨?_, ?_, ?_, e4⟩
            · rw [e1]; simp [headerPairs, hH]
            · rw [e2]; simp [cookiePairs, hC]
            · rw [e3]; simp [queryPairs, hQ, queryList, hu]
        · rw [addValues_skip req c rest hH hC hQ] at h
          obtain ⟨e1, e2, e3, e4⟩ := ih _ _ h
          refine ⟨?_, ?_, ?_, e4⟩
          · rw [e1]; simp [headerPairs, hH]
          · rw [e2]; simp [cookiePairs, hC]
          · rw [e3]; simp [queryPairs, hQ]

/-- A request that has a URL can never make the apply loop fail. -/
theorem addValues_ok_of_url_some (vals : List ctxValue) :
    ∀ req : Request, req.url.isSome → (addValues req vals).2 = none := by
  induction vals with
  | nil => intro req _; rfl
  | cons c rest ih =>
    intro req hs
    by_cases hH : c.location = LocationHeader
    · rw [addValues_header req c rest hH]; exact ih _ hs
    · by_cases hC : c.location = LocationCookie
      · rw [addValues_cookie req c rest hC]; exact ih _ hs
      · by_cases hQ : c.location = LocationQueryParam
        · cases hu : req.url with
          | none => rw [hu] at hs; simp at hs
          | some u =>
            rw [addValues_query_some req c rest u hQ hu]
            exact ih _ (by simp)
        · rw [addValues_skip req c rest hH hC hQ]; exact ih _ hs

/-- A carrier without query triples can never make the apply loop fail. -/
theorem addValues_ok_of_no_query (vals : List ctxValue) :
    ∀ req : Request, (∀ c ∈ vals, c.location ≠ LocationQueryParam) →
      (addValues req vals).2 = none := by
  induction vals with
  | nil => intro req _; rfl
  | cons c rest ih =>
    intro req hno
    have hQ : c.location ≠ LocationQueryParam := hno c (List.mem_cons_self c rest)
    have hrest : ∀ c ∈ rest, c.location ≠ LocationQueryParam :=
      fun x hx => hno x (List.mem_cons_of_mem c hx)
    by_cases hH : c.location = LocationHeader
    · rw [addValues_header req c rest hH]; exact ih _ hrest
    · by_cases hC : c.location = LocationCookie
      · rw [addValues_cookie req c rest hC]; exact ih _ hrest
      · rw [addValues_skip req c rest hH hC hQ]; exact ih _ hrest

/-- With no URL and a query triple somewhere in the carrier, the apply loop
returns the no-URL error. -/
theorem addValues_err_of_query (vals : List ctxValue) :
    ∀ req : Request, req.url = none →
      (∃ c ∈ vals, c.location = LocationQueryParam) →
      (addValues req vals).2 = some HtError.noURL := by
  induction vals with
  | nil => intro req _ hex; simp at hex
  | cons c rest ih =>
    intro req hurl hex
    by_cases hQ : c.location = LocationQueryParam
    · rw [addValues_query_none req c rest hQ hurl]
    · have hrest : ∃ x ∈ rest, x.location = LocationQueryParam := by
        obtain ⟨x, hx, hxq⟩ := hex
        rcases List.mem_cons.mp hx with h | h
        · exact absurd (h ▸ hxq) hQ
        · exact ⟨x, h, hxq⟩
      by_cases hH : c.location = LocationHeader
      · rw [addValues_header req c rest hH]; exact ih _ hurl hrest
      · by_cases hC : c.location = LocationCookie
        · rw [addValues_cookie req c rest hC]; exact ih _ hurl hrest
        · rw [addValues_skip req c rest hH hC hQ]; exact ih _ hurl hrest

/-- With no URL, the apply loop runs every triple before the first query
triple (appending its headers and cookies), then stops at the query triple
with the no-URL error, keeping the partial writes. -/
theorem addValues_stop (pre : List ctxValue) :
    ∀ (req : Request) (qcv : ctxValue) (rest : List ctxValue),
      req.url = none → (∀ c ∈ pre, c.location ≠ LocationQueryParam) →
      qcv.location = LocationQueryParam →
      addValues req (pre ++ qcv :: rest) =
        ({ req with headers := req.headers ++ headerPairs pre,
                    cookies := req.cookies ++ cookiePairs pre }, some HtError.noURL) := by
  induction pre with
  | nil =>
    intro req qcv rest hurl _ hq
    rw [List.nil_append, addValues_query_none req qcv rest hq hurl]
    simp [headerPairs, cookiePairs]
  | cons c pre ih =>
    intro req qcv rest hurl hpre hq
    have hQ : c.location ≠ LocationQueryParam := hpre c (List.mem_cons_self c pre)
    have hrest : ∀ x ∈ pre, x.location ≠ LocationQueryParam :=
      fun x hx => hpre x (List.mem_cons_of_mem c hx)
    by_cases hH : c.location = LocationHeader
    · have hC : c.location ≠ LocationCookie := by rw [hH]; decide
      have e1 : headerPairs (c :: pre) = (c.name, c.value) :: headerPairs pre := by
        simp [headerPairs, hH]
      have e2 : cookiePairs (c :: pre) = cookiePairs pre := by
        simp [cookiePairs, hC]
      rw [List.cons_append, addValues_header req c (pre ++ qcv :: rest) hH,
        ih { req with headers := req.headers ++ [(c.name, c.value)] } qcv rest hurl hrest hq]
      simp [e1, e2, List.append_assoc]
    · by_cases hC : c.location = LocationCookie
      · have e1 : headerPairs (c :: pre) = headerPairs pre := by
          simp [headerPairs, hH]
        have e2 : cookiePairs (c :: pre) = (c.name, c.value) :: cookiePairs pre := by
          simp [cookiePairs, hC]
        rw [List.cons_append, addValues_cookie req c (pre ++ qcv :: rest) hC,
          ih { req with cookies := req.cookies ++ [(c.name, c.value)] } qcv rest hurl hrest hq]
        simp [e1, e2, List.append_assoc]
      · have e1 : headerPairs (c :: pre) = headerPairs pre := by
          simp [headerPairs, hH]
        have e2 : cookiePairs (c :: pre) = cookiePairs pre := by
          simp [cookiePairs, hC]
        rw [List.cons_append, addValues_skip req c (pre ++ qcv :: rest) hH hC hQ,
          ih req qcv rest hurl hrest hq]
        simp [e1, e2]

/-! Concrete instances used by the witnesses. -/

/-- A concrete inbound request with no headers, cookies, URL or context. -/
def wReqEmpty : Request := { headers := [], cookies := [], url := none, ctx := none }

/-- A concrete fallback function, as in the spec's missing-value test. -/
def wFallback : String → Request → String := fun _ _ => "blah"

/-- The spec's tracking rule with this fallback configured. -/
def wValFB : Value :=
  ⟨LocationHeader, "x-tracking-id", LocationHeader, "x-tracking-id", some wFallback⟩

/-- The same rule with no fallback. -/
def wValPlain : Value :=
  ⟨LocationHeader, "x-tracking-id", LocationHeader, "x-tracking-id", none⟩

/-- A concrete resolved header triple. -/
def wHeaderTriple : ctxValue := ⟨LocationHeader, "h", "v"⟩

/-- A concrete resolved query-parameter triple. -/
def wQueryTriple : ctxValue := ⟨LocationQueryParam, "q", "v"⟩

/-- A triple whose location matches none of the three constants. -/
def wBadTriple : ctxValue := ⟨9, "x", "y"⟩

/-- A carrier holding one header triple. -/
def wDataOk : ctxData := ⟨[wHeaderTriple]⟩

/-- A carrier holding one query triple. -/
def wDataQ : ctxData := ⟨[wQueryTriple]⟩

/-- A carrier holding a header triple followed by a query triple. -/
def wDataHQ : ctxData := ⟨[wHeaderTriple, wQueryTriple]⟩

/-- An outbound request carrying `wDataOk`, without a URL. -/
def wReqOk : Request := { headers := [], cookies := [], url := none, ctx := some wDataOk }

/-- An outbound request carrying `wDataQ`, without a URL. -/
def wReqQ : Request := { headers := [], cookies := [], url := none, ctx := some wDataQ }

/-- An outbound request carrying `wDataHQ`, without a URL. -/
def wReqHQ : Request := { headers := [], cookies := [], url := none, ctx := some wDataHQ }

/-! The claims. -/

/-- C1: during Handler's bind pass a rule's `MissingFunc` call site runs
exactly once when the inbound read is absent or empty and a fallback is
configured, and zero times otherwise (in particular never when the inbound
value is present and non-empty); when the fallback runs, the value it
returned is what the rule resolves to and (when non-empty) what is frozen
into the carrier triple.  The outbound pass (`addValues`) consumes only
`ctxValue` triples, which hold plain strings and no functions, so a fallback
can never be re-invoked on later outbound requests. -/
theorem C1_fallback_once (r : Request) (v : Value) :
    ((resolveRule r v).2 =
      if readInbound r v = "" ∧ (v.MissingFunc).isSome then 1 else 0) ∧
    (readInbound r v = "" → ∀ f, v.MissingFunc = some f →
      (resolveRule r v).1 = f v.OutboundName r ∧
      (f v.OutboundName r ≠ "" →
        bindRule r v = some ⟨v.OutboundLocation, v.OutboundName, f v.OutboundName r⟩)) := by
  constructor
  · by_cases h : readInbound r v = ""
    · cases hf : v.MissingFunc <;> simp [resolveRule, h, hf]
    · simp [resolveRule, h]
  · intro h f hf
    refine ⟨by simp [resolveRule, h, hf], ?_⟩
    intro hne
    simp [bindRule, resolveRule, h, hf, hne]

/-- Witness for C1: on an inbound request with no `x-tracking-id` header and
the rule configured with the `"blah"` fallback, the fallback runs exactly
once and its result is the resolved value. -/
theorem C1_witness :
    (resolveRule wReqEmpty wValFB).2 = 1 ∧ (resolveRule wReqEmpty wValFB).1 = "blah" :=
  ⟨by rw [(C1_fallback_once wReqEmpty wValFB).1]; rfl,
   ((C1_fallback_once wReqEmpty wValFB).2 rfl wFallback rfl).1⟩

/-- C2: the bind pass maps each rule to at most one triple (`bindRule`), so
the carrier is exactly the rule list filtered through `bindRule` — each rule
contributes at most one triple and the triples keep the rules' relative
order — and its length is at most the number of rules. -/
theorem C2_bind_shape (r : Request) (vs : List Value) :
    bindValues r vs = vs.filterMap (fun v => bindRule r v) ∧
    (bindValues r vs).length ≤ vs.length := by
  refine ⟨bindValues_eq_filterMap r vs, ?_⟩
  rw [bindValues_eq_filterMap]
  exact List.length_filterMap_le _ _

/-- C3: a rule whose resolved value is the empty string (absent or empty
inbound read with no fallback, or a fallback that returned `""`) produces no
triple: it is dropped from the carrier wherever it sits in the rule list, and
applying the carrier it produced alone succeeds with no error and leaves the
outbound request completely unchanged — no field of the outbound name is
added at all. -/
theorem C3_empty_skipped (r r0 : Request) (v : Value) (vs1 vs2 : List Value)
    (h : (resolveRule r v).1 = "") :
    bindRule r v = none ∧
    bindValues r (vs1 ++ v :: vs2) = bindValues r (vs1 ++ vs2) ∧
    AddContextData { r0 with ctx := some ⟨bindValues r [v]⟩ } =
      ({ r0 with ctx := some ⟨bindValues r [v]⟩ }, none) := by
  have hb : bindRule r v = none := by simp [bindRule, h]
  refine ⟨hb, ?_, ?_⟩
  · simp [bindValues_eq_filterMap, List.filterMap_append, List.filterMap_cons, hb]
  · simp [bindValues, hb, AddContextData, addValues]

/-- Witness for C3: the no-header, no-fallback rule of the spec's test
produces no triple and the outbound request gains no header. -/
theorem C3_witness :
    bindRule wReqEmpty wValPlain = none ∧
    bindValues wReqEmpty ([] ++ wValPlain :: []) = bindValues wReqEmpty ([] ++ []) ∧
    AddContextData { wReqEmpty with ctx := some ⟨bindValues wReqEmpty [wValPlain]⟩ } =
      ({ wReqEmpty with ctx := some ⟨bindValues wReqEmpty [wValPlain]⟩ }, none) :=
  C3_empty_skipped wReqEmpty wReqEmpty wValPlain [] [] rfl

/-- C4: on an outbound request whose context holds no carrier,
`AddContextData` returns `ErrMissingContext` and the request is left exactly
as it was — no header, cookie or query component is touched. -/
theorem C4_missing_carrier (req : Request) (h : req.ctx = none) :
    AddContextData req = (req, some HtError.missingContext) := by
  simp [AddContextData, h]

/-- Witness for C4 at a concrete carrier-less request. -/
theorem C4_witness :
    AddContextData wReqEmpty = (wReqEmpty, some HtError.missingContext) :=
  C4_missing_carrier wReqEmpty rfl

/-- C5: with a carrier present and the apply loop succeeding, the outbound
request's headers are exactly its old headers with the carrier's header
triples appended in carrier order, likewise for cookies and for the query
multi-map — so nothing already on the request is removed or overwritten —
and a present-but-empty carrier always succeeds leaving the request
unchanged. -/
theorem C5_apply_appends (req : Request) (data : ctxData)
    (h : req.ctx = some data) (hok : (AddContextData req).2 = none) :
    (AddContextData req).1.headers = req.headers ++ headerPairs data.values ∧
    (AddContextData req).1.cookies = req.cookies ++ cookiePairs data.values ∧
    queryList (AddContextData req).1 = queryList req ++ queryPairs data.values ∧
    (AddContextData req).1.ctx = req.ctx ∧
    AddContextData { req with ctx := some ⟨[]⟩ } =
      ({ req with ctx := some ⟨[]⟩ }, none) := by
  have hA : AddContextData req = addValues req data.values := by
    simp [AddContextData, h]
  rw [hA] at hok ⊢
  cases hv : addValues req data.values with
  | mk req' e =>
    rw [hv] at hok
    simp only at hok
    subst hok
    obtain ⟨e1, e2, e3, e4⟩ := addValues_ok data.values req req' hv
    exact ⟨e1, e2, e3, by rw [e4, h], by simp [AddContextData, addValues]⟩

/-- Witness for C5: a carrier holding one header triple appends exactly that
header. -/
theorem C5_witness :
    (AddContextData wReqOk).1.headers = wReqOk.headers ++ headerPairs wDataOk.values :=
  (C5_apply_appends wReqOk wDataOk rfl rfl).1

/-- C6: `NewRequestWithContext` swallows `ErrMissingContext` from
`AddContextData` — with a context that never came from Handler it succeeds
and returns the fresh request with no tracking fields added — while any
other `AddContextData` error is propagated to the caller. -/
theorem C6_swallow_missing (ctx : Option ctxData) (url : Option URL) (e : HtError)
    (he : (AddContextData (baseRequest ctx url)).2 = some e)
    (hne : e ≠ HtError.missingContext) :
    NewRequestWithContext ctx url = Except.error e ∧
    NewRequestWithContext none url = Except.ok (baseRequest none url) := by
  constructor
  · simp [NewRequestWithContext, he, hne]
  · simp [NewRequestWithContext, AddContextData, baseRequest]

/-- Witness for C6: a carrier with a query triple and a URL-less base request
makes `AddContextData` fail with the no-URL error, which
`NewRequestWithContext` propagates. -/
theorem C6_witness :
    NewRequestWithContext (some wDataQ) none = Except.error HtError.noURL ∧
    NewRequestWithContext none none = Except.ok (baseRequest none none) :=
  C6_swallow_missing (some wDataQ) none HtError.noURL rfl (by decide)

/-- C7: a carrier containing a query-parameter triple applied to an outbound
request with no URL makes `AddContextData` fail with the no-URL error (the
spec's `InvalidRequestError`), and `NewRequestWithContext` does not swallow
it: it propagates the error to its caller. -/
theorem C7_query_nil_url (req : Request) (data : ctxData)
    (h : req.ctx = some data) (hurl : req.url = none)
    (hq : ∃ c ∈ data.values, c.location = LocationQueryParam) :
    (AddContextData req).2 = some HtError.noURL ∧
    NewRequestWithContext (some data) none = Except.error HtError.noURL := by
  have hA : AddContextData req = addValues req data.values := by
    simp [AddContextData, h]
  refine ⟨by rw [hA]; exact addValues_err_of_query data.values req hurl hq, ?_⟩
  have h2 : (AddContextData (baseRequest (some data) none)).2 = some HtError.noURL := by
    have hB : AddContextData (baseRequest (some data) none) =
        addValues (baseRequest (some data) none) data.values := by
      simp [AddContextData, baseRequest]
    rw [hB]
    exact addValues_err_of_query data.values _ rfl hq
  simp [NewRequestWithContext, h2]

/-- Witness for C7 at a concrete URL-less request carrying one query triple. -/
theorem C7_witness :
    (AddContextData wReqQ).2 = some HtError.noURL ∧
    NewRequestWithContext (some wDataQ) none = Except.error HtError.noURL :=
  C7_query_nil_url wReqQ wDataQ rfl rfl
    ⟨wQueryTriple, List.mem_cons_self _ _, rfl⟩

/-- C8: the bind pass is deterministic: two inbound requests that agree on
every observable component (headers, cookies, URL with its query string, and
context — everything a rule read or a fallback can observe) yield the same
carrier contents, the same triples in the same order, and `handlerBind`
installs the same carrier. -/
theorem C8_deterministic (r r' : Request) (vs : List Value)
    (h1 : r.headers = r'.headers) (h2 : r.cookies = r'.cookies)
    (h3 : r.url = r'.url) (h4 : r.ctx = r'.ctx) :
    bindValues r vs = bindValues r' vs ∧
    (handlerBind vs r).ctx = (handlerBind vs r').ctx := by
  have hrr : r = r' := by
    cases r; cases r'; simp_all
  subst hrr
  exact ⟨rfl, rfl⟩

/-- Witness for C8 at a concrete request and rule list. -/
theorem C8_witness :
    bindValues wReqEmpty [wValFB] = bindValues wReqEmpty [wValFB] ∧
    (handlerBind [wValFB] wReqEmpty).ctx = (handlerBind [wValFB] wReqEmpty).ctx :=
  C8_deterministic wReqEmpty wReqEmpty [wValFB] rfl rfl rfl rfl

/-- C9: `AddContextData` errs exactly when the context holds no carrier or
the request has no URL and the carrier holds some query-parameter triple;
and a triple whose location is none of the three constants falls through the
switch — it writes nothing and raises nothing. -/
theorem C9_error_iff (req r2 : Request) (cv : ctxValue) (rest : List ctxValue)
    (h1 : cv.location ≠ LocationHeader) (h2 : cv.location ≠ LocationCookie)
    (h3 : cv.location ≠ LocationQueryParam) :
    ((AddContextData req).2 ≠ none ↔
      req.ctx = none ∨
        (req.url = none ∧ ∃ data, req.ctx = some data ∧
          ∃ c ∈ data.values, c.location = LocationQueryParam)) ∧
    addValues r2 (cv :: rest) = addValues r2 rest := by
  refine ⟨?_, addValues_skip r2 cv rest h1 h2 h3⟩
  constructor
  · intro herr
    cases hctx : req.ctx with
    | none => exact Or.inl rfl
    | some data =>
      have hA : AddContextData req = addValues req data.values := by
        simp [AddContextData, hctx]
      right
      cases hurl : req.url with
      | some u =>
        exact absurd (hA ▸ addValues_ok_of_url_some data.values req (by simp [hurl])) herr
      | none =>
        refine ⟨rfl, data, rfl, ?_⟩
        by_contra hno
        push_neg at hno
        exact herr (hA ▸ addValues_ok_of_no_query data.values req hno)
  · intro hor
    rcases hor with hctx | ⟨hurl, data, hctx, hq⟩
    · simp [AddContextData, hctx]
    · have hA : AddContextData req = addValues req data.values := by
        simp [AddContextData, hctx]
      rw [hA, addValues_err_of_query data.values req hurl hq]
      simp

/-- Witness for C9: the query-triple carrier on a URL-less request errs, and
a location-9 triple is a no-op. -/
theorem C9_witness :
    (AddContextData wReqQ).2 ≠ none ∧
    addValues wReqEmpty (wBadTriple :: []) = addValues wReqEmpty [] :=
  ⟨(C9_error_iff wReqQ wReqEmpty wBadTriple [] (by decide) (by decide) (by decide)).1.mpr
      (Or.inr ⟨rfl, wDataQ, rfl, wQueryTriple, List.mem_cons_self _ _, rfl⟩),
   (C9_error_iff wReqQ wReqEmpty wBadTriple [] (by decide) (by decide) (by decide)).2⟩

/-- C10: `AddContextData` is not atomic on failure: when the carrier is a
prefix of non-query triples followed by a query triple and the request has no
URL, the returned error is the no-URL error and the final request keeps every
header and cookie write of the prefix — the partial writes are not undone. -/
theorem C10_partial_writes (req : Request) (data : ctxData)
    (pre rest : List ctxValue) (qcv : ctxValue)
    (h : req.ctx = some data) (hurl : req.url = none)
    (hsplit : data.values = pre ++ qcv :: rest)
    (hpre : ∀ c ∈ pre, c.location ≠ LocationQueryParam)
    (hq : qcv.location = LocationQueryParam) :
    (AddContextData req).2 = some HtError.noURL ∧
    (AddContextData req).1.headers = req.headers ++ headerPairs pre ∧
    (AddContextData req).1.cookies = req.cookies ++ cookiePairs pre := by
  have hA : AddContextData req = addValues req data.values := by
    simp [AddContextData, h]
  rw [hA, hsplit, addValues_stop pre req qcv rest hurl hpre hq]
  exact ⟨rfl, rfl, rfl⟩

/-- Witness for C10: a header triple before a query triple on a URL-less
request is written before the error is returned. -/
theorem C10_witness :
    (AddContextData wReqHQ).2 = some HtError.noURL ∧
    (AddContextData wReqHQ).1.headers = wReqHQ.headers ++ headerPairs [wHeaderTriple] ∧
    (AddContextData wReqHQ).1.cookies = wReqHQ.cookies ++ cookiePairs [wHeaderTriple] :=
  C10_partial_writes wReqHQ wDataHQ [wHeaderTriple] [] wQueryTriple rfl rfl rfl
    (by decide) rfl

end Httptrack
